import Mathlib

/-!
Verification of the historical-data warehouse / technical-indicator /
forecasting pipeline of the crypto-data-pipeline repository
(`src/ml/data_warehouse.py` and `src/ml/ml_models.py`).

Real numbers of the Python code (numpy floats) are modelled as rationals
(`ℚ`); a pandas `NaN` cell is modelled as `none : Option ℚ`.  Floating-point
square roots (`pandas.rolling.std`) are modelled by an arbitrary function
parameter `sq : ℚ → ℚ`, since the square root of a rational is in general
irrational; every theorem below holds for every choice of `sq`.
Date-ordered SQL tables are modelled as Lean lists in ascending date order
(the tables carry a `UNIQUE(coin_id, date)` constraint and every query in
the code orders by `date`), with the row index standing for the date.
-/

namespace CryptoPipeline

/-! ## Rolling-window primitives (pandas `rolling`) -/

/-- Trailing window of width `w` ending at index `t`:
`df[...].rolling(window=w)` looks at rows `t-w+1 .. t` and yields a value
only once `w` observations exist (`min_periods` defaults to the window
size), i.e. for `w ≤ t+1`. -/
def rollingWindow (w : ℕ) (xs : List ℚ) (t : ℕ) : Option (List ℚ) :=
  if w ≤ t + 1 ∧ t < xs.length then some ((xs.drop (t + 1 - w)).take w) else none

/-- Value of `series.rolling(window=w).mean()` at index `t`. -/
def rollingMeanAt (w : ℕ) (xs : List ℚ) (t : ℕ) : Option ℚ :=
  (rollingWindow w xs t).map (fun win => win.sum / (w : ℚ))

/-- Value of `series.rolling(window=w).std()` at index `t`: the sample
standard deviation (pandas default `ddof=1`) of the trailing window,
square root taken by the float model `sq`. -/
def rollingStdAt (sq : ℚ → ℚ) (w : ℕ) (xs : List ℚ) (t : ℕ) : Option ℚ :=
  (rollingWindow w xs t).map (fun win =>
    sq ((win.map (fun x => (x - win.sum / (w : ℚ)) ^ 2)).sum / ((w : ℚ) - 1)))

/-- Value of `series.rolling(window=w).min()` at index `t`. -/
def rollingMinAt (w : ℕ) (xs : List ℚ) (t : ℕ) : Option ℚ :=
  (rollingWindow w xs t).bind (fun win => win.min?)

/-- Value of `series.rolling(window=w).max()` at index `t`. -/
def rollingMaxAt (w : ℕ) (xs : List ℚ) (t : ℕ) : Option ℚ :=
  (rollingWindow w xs t).bind (fun win => win.max?)

/-! ## Exponentially weighted means (pandas `ewm(span=n).mean()`) -/

/-- Recurrence for the numerator/denominator pair of pandas
`ewm(span).mean()` with its default `adjust=True`:
`y[t] = (x[t] + c*x[t-1] + ... + c^t*x[0]) / (1 + c + ... + c^t)`
with `c = 1 - 2/(span+1)`, computed by
`num[t] = x[t] + c*num[t-1]`, `den[t] = 1 + c*den[t-1]`. -/
def ewmAux (c : ℚ) : ℚ → ℚ → List ℚ → List ℚ
  | _, _, [] => []
  | num, den, x :: xs =>
    ((x + c * num) / (1 + c * den)) :: ewmAux c (x + c * num) (1 + c * den) xs

/-- `series.ewm(span=span).mean()` as a whole-column transformation. -/
def ewmMean (span : ℚ) (xs : List ℚ) : List ℚ :=
  ewmAux (1 - 2 / (span + 1)) 0 0 xs

/-! ## Indicator Engine (`CryptoDataWarehouse.calculate_technical_indicators`) -/

/-- Positive part: `delta.where(delta > 0, 0)` applied to one delta. -/
def posPart (d : ℚ) : ℚ := if 0 < d then d else 0

/-- Negated negative part: `-delta.where(delta < 0, 0)` applied to one delta. -/
def negPart (d : ℚ) : ℚ := if d < 0 then -d else 0

/-- The gain series of the RSI computation.  `delta = price.diff()` has a
`NaN` at index 0, and `delta.where(delta > 0, 0)` replaces it by `0`
(a `NaN` fails the `> 0` test), so the gain series starts with `0` and
continues with the positive parts of the one-step differences.
(The Python code only reaches this point for a nonempty price series —
`calculate_technical_indicators` returns early when the dataframe is
empty — and for nonempty `xs` this list has exactly `xs.length` entries.) -/
def gainList (xs : List ℚ) : List ℚ :=
  0 :: List.zipWith (fun a b => posPart (a - b)) (xs.drop 1) xs

/-- The loss series `-delta.where(delta < 0, 0)` of the RSI computation,
with the index-0 `NaN` of `diff` likewise replaced by `0`. -/
def lossList (xs : List ℚ) : List ℚ :=
  0 :: List.zipWith (fun a b => negPart (a - b)) (xs.drop 1) xs

/-- `rsi_14 = 100 - 100/(1 + rs)` with `rs = gain/loss`, both sides rolling
14-period means.  Float edge cases of the division are made explicit:
with average loss `0` and positive average gain, `rs = +inf` and the float
expression evaluates to `100`; with both averages `0`, `rs = NaN` and the
result is `NaN` (modelled `none`). -/
def rsiAt (xs : List ℚ) (t : ℕ) : Option ℚ :=
  match rollingMeanAt 14 (gainList xs) t, rollingMeanAt 14 (lossList xs) t with
  | some g, some l =>
    if l = 0 then (if g = 0 then none else some 100)
    else some (100 - 100 / (1 + g / l))
  | _, _ => none

/-- `macd = ema_12 - ema_26`, as a whole column. -/
def macdList (xs : List ℚ) : List ℚ :=
  List.zipWith (fun a b => a - b) (ewmMean 12 xs) (ewmMean 26 xs)

/-- One row of the `technical_indicators` table (C2, C6).  `NaN`-able
columns are `Option ℚ`; the `ewm`-derived columns are defined from index 0
onwards and hence total. -/
structure IndicatorRow where
  sma_7 : Option ℚ
  sma_14 : Option ℚ
  sma_30 : Option ℚ
  ema_12 : ℚ
  ema_26 : ℚ
  rsi_14 : Option ℚ
  macd : ℚ
  macd_signal : ℚ
  bollinger_upper : Option ℚ
  bollinger_lower : Option ℚ
  volatility : Option ℚ
deriving DecidableEq

/-- The indicator row computed at index `t` of the price series, following
`calculate_technical_indicators`: simple moving averages over 7/14/30,
exponential moving averages with spans 12/26, Wilder-style RSI(14),
MACD and its span-9 signal line, Bollinger bands around `sma_14` with
two sample standard deviations, and the 14-period coefficient of
variation. -/
def indicatorRowAt (sq : ℚ → ℚ) (xs : List ℚ) (t : ℕ) : IndicatorRow :=
  { sma_7 := rollingMeanAt 7 xs t
    sma_14 := rollingMeanAt 14 xs t
    sma_30 := rollingMeanAt 30 xs t
    ema_12 := (ewmMean 12 xs).getD t 0
    ema_26 := (ewmMean 26 xs).getD t 0
    rsi_14 := rsiAt xs t
    macd := (macdList xs).getD t 0
    macd_signal := (ewmMean 9 (macdList xs)).getD t 0
    bollinger_upper :=
      Option.map₂ (fun m s => m + s * 2) (rollingMeanAt 14 xs t) (rollingStdAt sq 14 xs t)
    bollinger_lower :=
      Option.map₂ (fun m s => m - s * 2) (rollingMeanAt 14 xs t) (rollingStdAt sq 14 xs t)
    volatility :=
      Option.map₂ (fun s m => s / m) (rollingStdAt sq 14 xs t) (rollingMeanAt 14 xs t) }

/-- `calculate_technical_indicators`: one output row per input price row,
aligned by date (the code INSERTs every dataframe row, `NaN`s included). -/
def calculate_technical_indicators (sq : ℚ → ℚ) (xs : List ℚ) : List IndicatorRow :=
  (List.range xs.length).map (fun t => indicatorRowAt sq xs t)

/-! ## Feature Builder (`CryptoDataWarehouse.create_ml_features`) -/

/-- One row of the dataframe that `create_ml_features` reads: the LEFT
JOIN of `historical_prices` (price, volume — both `NOT NULL`) with
`technical_indicators` (nullable indicator columns), ordered by date.
The joined `volatility`, `bollinger_upper` and `bollinger_lower`
columns are selected by the query but never used by the feature
construction, so they are not modelled. -/
structure JoinedRow where
  price : ℚ
  volume : ℚ
  rsi_14 : Option ℚ
  macd : Option ℚ
  macd_signal : Option ℚ
deriving DecidableEq

/-- `series.shift(k)` at index `t`: the value `k` rows earlier, `NaN`
while fewer than `k` predecessors exist. -/
def lagAt (xs : List ℚ) (k t : ℕ) : Option ℚ :=
  if k ≤ t then xs[t - k]? else none

/-- `price.pct_change(7)` at index `t`: `price[t]/price[t-7] - 1`, `NaN`
for `t < 7`.  A zero price seven rows earlier (impossible for market
data) would give an IEEE `±inf`/`NaN`; it is modelled as undefined. -/
def pctChange7At (xs : List ℚ) (t : ℕ) : Option ℚ :=
  if 7 ≤ t then
    match xs[t - 7]?, xs[t]? with
    | some p0, some p1 => if p0 = 0 then none else some (p1 / p0 - 1)
    | _, _ => none
  else none

/-- The trend label `lambda x: 1 if x > 0.05 else (-1 if x < -0.05 else 0)`
applied to the (possibly `NaN`) 7-period percentage change: a `NaN`
fails both float comparisons and yields `0`. -/
def trendDirection (x : Option ℚ) : ℤ :=
  match x with
  | none => 0
  | some v => if 1 / 20 < v then 1 else if v < -(1 / 20) then -1 else 0

/-- One row of the `ml_features` table, `NaN`-able columns as `Option ℚ`;
`date` is the row index of the date-ordered input. -/
structure FeatureRow where
  date : ℕ
  price_current : ℚ
  price_1d_ago : Option ℚ
  price_7d_ago : Option ℚ
  price_30d_ago : Option ℚ
  volume_avg_7d : Option ℚ
  volume_avg_30d : Option ℚ
  volatility_7d : Option ℚ
  volatility_30d : Option ℚ
  rsi_14 : Option ℚ
  macd_signal_strength : Option ℚ
  trend_direction : ℤ
  support_level : Option ℚ
  resistance_level : Option ℚ
deriving DecidableEq

/-- The feature row `create_ml_features` derives at index `t`: lagged
prices (1/7/30), rolling volume means (7/30), rolling price standard
deviations (7/30), the joined `rsi_14`, `|macd - macd_signal|`
(`NaN` when either operand is), the thresholded trend label, and the
30-period rolling min/max as support/resistance. -/
def featureRowAt (sq : ℚ → ℚ) (rows : List JoinedRow) (t : ℕ) : FeatureRow :=
  { date := t
    price_current := (rows.map JoinedRow.price).getD t 0
    price_1d_ago := lagAt (rows.map JoinedRow.price) 1 t
    price_7d_ago := lagAt (rows.map JoinedRow.price) 7 t
    price_30d_ago := lagAt (rows.map JoinedRow.price) 30 t
    volume_avg_7d := rollingMeanAt 7 (rows.map JoinedRow.volume) t
    volume_avg_30d := rollingMeanAt 30 (rows.map JoinedRow.volume) t
    volatility_7d := rollingStdAt sq 7 (rows.map JoinedRow.price) t
    volatility_30d := rollingStdAt sq 30 (rows.map JoinedRow.price) t
    rsi_14 := (rows[t]?).bind JoinedRow.rsi_14
    macd_signal_strength :=
      (rows[t]?).bind (fun r => Option.map₂ (fun a b => |a - b|) r.macd r.macd_signal)
    trend_direction := trendDirection (pctChange7At (rows.map JoinedRow.price) t)
    support_level := rollingMinAt 30 (rows.map JoinedRow.price) t
    resistance_level := rollingMaxAt 30 (rows.map JoinedRow.price) t }

/-- `create_ml_features`: the full derived feature dataframe, one row per
joined input row. -/
def create_ml_features (sq : ℚ → ℚ) (rows : List JoinedRow) : List FeatureRow :=
  (List.range rows.length).map (fun t => featureRowAt sq rows t)

/-- The rows `create_ml_features` actually INSERTs into `ml_features`:
the loop persists a row iff `pd.notna(row['price_1d_ago'])`. -/
def persisted_ml_features (sq : ℚ → ℚ) (rows : List JoinedRow) : List FeatureRow :=
  (create_ml_features sq rows).filter (fun r => r.price_1d_ago.isSome)

/-! ## Forecast Trainer / Predictor (`CryptoPricePredictor`) -/

/-- Mean of a list (`np.mean`; the empty-list division yields `0` in `ℚ`
where numpy warns and yields `NaN` — no claim touches that case). -/
def listMean (xs : List ℚ) : ℚ := xs.sum / xs.length

/-- Population variance `np.var` (numpy default `ddof=0`). -/
def np_var (xs : List ℚ) : ℚ :=
  (xs.map (fun p => (p - listMean xs) ^ 2)).sum / xs.length

/-- A feature normalizer (`StandardScaler.transform`), kept abstract. -/
def Scaler : Type := List ℚ → List ℚ

/-- The model kinds `train_models` fits.  The fitted regressors themselves
are sklearn objects; each is kept abstract as its prediction function
(for a random forest: the individual trees in `model.estimators_`). -/
inductive MLModel where
  | randomForest (trees : List (List ℚ → ℚ))
  | gradientBoosting (f : List ℚ → ℚ)
  | linearRegression (f : List ℚ → ℚ)

/-- `model.predict` on one feature vector, with the normalizer applied
first exactly when the model is a `LinearRegression`
(`if isinstance(model, LinearRegression): X_scaled = scaler.transform(X)`).
A sklearn random forest predicts the mean of its trees. -/
def MLModel.predictWith : MLModel → Scaler → List ℚ → ℚ
  | .randomForest trees, _, x => listMean (trees.map (fun f => f x))
  | .gradientBoosting f, _, x => f x
  | .linearRegression f, s, x => f (s x)

/-- The persistent model store (`self.models` / `self.scalers` plus the
joblib dumps under `models/`): association lists keyed by
`f"{coin_id}_{target_days}d"`. -/
structure TrainStore where
  models : List (String × MLModel)
  scalers : List (String × Scaler)

/-- `train_models` for one `(coin_id, target_days)` key, acting on the
cleaned feature matrix `X` and target `y` from `prepare_data` (target
shift plus `dropna`).  The sklearn fitting/model-selection block is the
abstract parameter `fit`; it is reached only when the guard
`if len(X) < 50: return False` does not fire, and its winner is then
registered in the store under the key. -/
def train_models (fit : List (List ℚ) → List ℚ → MLModel × Scaler)
    (st : TrainStore) (key : String) (X : List (List ℚ)) (y : List ℚ) :
    Option (MLModel × Scaler) × TrainStore :=
  if X.length < 50 then (none, st)
  else
    let ms := fit X y
    (some ms, ⟨(key, ms.1) :: st.models, (key, ms.2) :: st.scalers⟩)

/-- The prediction record `predict_price` returns (its `coin_id`,
`prediction_date` and `target_date` entries are identification strings
taken from the wall clock and are not modelled). -/
structure Prediction where
  current_price : ℚ
  predicted_price : ℚ
  price_change_percent : ℚ
  confidence : ℚ

/-- `_calculate_confidence`: for a random forest, the per-tree
predictions are collected, and `max(0, min(1, 1 - var/mean))` is
returned; every other model kind gets the fixed `0.75`.  The
`mean = 0` branches spell out the IEEE outcomes of that expression:
`var/0` is `±inf` and clamps to `0`, and `0/0` is `NaN`, for which
Python's `min(1, nan)` keeps `1`. -/
def calculate_confidence (m : MLModel) (x : List ℚ) : ℚ :=
  match m with
  | .randomForest trees =>
    let preds := trees.map (fun f => f x)
    if listMean preds = 0 then (if np_var preds = 0 then 1 else 0)
    else max 0 (min 1 (1 - np_var preds / listMean preds))
  | _ => 3 / 4

/-- `predict_price` for one key: resolve the model from memory, else from
the joblib files (loading it into memory), else fail with `None`; then
predict from the most recent feature row (`recent` is `none` when the
`ml_features` query comes back empty) and report the price, the change
percentage and the heuristic confidence. -/
def predict_price (mem : List (String × (MLModel × Scaler)))
    (files : String → Option (MLModel × Scaler)) (key : String)
    (recent : Option (List ℚ × ℚ)) :
    Option Prediction × List (String × (MLModel × Scaler)) :=
  match List.lookup key mem, files key with
  | none, none => (none, mem)
  | none, some ms =>
    match recent with
    | none => (none, (key, ms) :: mem)
    | some (x, current) =>
      (some { current_price := current
              predicted_price := ms.1.predictWith ms.2 x
              price_change_percent := (ms.1.predictWith ms.2 x - current) / current * 100
              confidence := calculate_confidence ms.1 x }, (key, ms) :: mem)
  | some ms, _ =>
    match recent with
    | none => (none, mem)
    | some (x, current) =>
      (some { current_price := current
              predicted_price := ms.1.predictWith ms.2 x
              price_change_percent := (ms.1.predictWith ms.2 x - current) / current * 100
              confidence := calculate_confidence ms.1 x }, mem)

/-- The evaluation report of `evaluate_model_performance`. -/
structure EvalReport where
  mae : ℚ
  mse : ℚ
  r2 : ℚ
  directional_accuracy : ℚ
  total_predictions : ℕ
deriving DecidableEq

/-- The directional-accuracy computation of `evaluate_model_performance`
over the joined `(predicted_price, actual_price)` rows:
`actual_change = (actual - predicted) > 0`,
`predicted_change = predicted > 0` (the literal code, comment
"Simplificado"), and the mean of their boolean agreement. -/
def directional_accuracy (rows : List (ℚ × ℚ)) : ℚ :=
  ((rows.filter (fun pa => decide (0 < pa.2 - pa.1) == decide (0 < pa.1))).length : ℚ) /
    (rows.length : ℚ)

/-- `evaluate_model_performance` on the joined prediction/actual rows
(`pa.1` = `predicted_price`, `pa.2` = `actual_price`); `none` models the
early `return None` on an empty join. -/
def evaluate_model_performance (rows : List (ℚ × ℚ)) : Option EvalReport :=
  if rows.isEmpty then none
  else some
    { mae := listMean (rows.map (fun pa => |pa.2 - pa.1|))
      mse := listMean (rows.map (fun pa => (pa.2 - pa.1) ^ 2))
      r2 := 1 - (rows.map (fun pa => (pa.2 - pa.1) ^ 2)).sum /
        (rows.map (fun pa => (pa.2 - listMean (rows.map Prod.snd)) ^ 2)).sum
      directional_accuracy := directional_accuracy rows
      total_predictions := rows.length }

/-- The chronological split of `train_test_split(X, y, test_size=0.2,
random_state=42, shuffle=False)`: with shuffling disabled sklearn cuts
the row range in order, the last `ceil(0.2 * n)` rows becoming the test
set and the first `n - ceil(0.2 * n)` rows the training set. -/
def train_test_split_chrono {α : Type} (rows : List α) : List α × List α :=
  (rows.take (rows.length - (rows.length + 4) / 5),
   rows.drop (rows.length - (rows.length + 4) / 5))

/-! ## Claims about the Forecast Trainer and Predictor -/

/-- C3: `train_models` splits the prepared feature table chronologically
with no shuffling — the first 80% of rows form the training set and the
last 20% the test set — so whenever the rows arrive strictly sorted by
date (they do: the query orders by the UNIQUE-per-coin `date` column),
every test row's date is strictly greater than every training row's
date, in particular than the maximum training date. -/
theorem spec_C3_chronological_split {α : Type} (date : α → ℕ) (rows : List α)
    (hsorted : rows.Pairwise (fun a b => date a < date b)) :
    ∀ b ∈ (train_test_split_chrono rows).2, ∀ a ∈ (train_test_split_chrono rows).1,
      date a < date b := by
  intro b hb a ha
  have hsplit := List.take_append_drop (rows.length - (rows.length + 4) / 5) rows
  rw [← hsplit] at hsorted
  exact (List.pairwise_append.mp hsorted).2.2 a ha b hb

/-- Witness for C3 at a concrete five-row table: the split keeps the
first four rows for training, reserves the last for test, and the
training date 4 is below the test date 5 (by the theorem). -/
theorem spec_C3_chronological_split_witness :
    4 ∈ (train_test_split_chrono [1, 2, 3, 4, 5]).1 ∧
    5 ∈ (train_test_split_chrono [1, 2, 3, 4, 5]).2 ∧ 4 < 5 :=
  ⟨by decide, by decide,
    spec_C3_chronological_split id [1, 2, 3, 4, 5] (by decide) 5 (by decide) 4 (by decide)⟩

/-- C4: with fewer than 50 cleaned rows, `train_models` returns the
failure value (`False` in Python, `none` here) before any model is
fitted, and the model/scaler store is returned untouched. -/
theorem spec_C4_insufficient_data (fit : List (List ℚ) → List ℚ → MLModel × Scaler)
    (st : TrainStore) (key : String) (X : List (List ℚ)) (y : List ℚ)
    (h : X.length < 50) :
    train_models fit st key X y = (none, st) := by
  simp [train_models, h]

/-- Witness for C4: an empty cleaned table aborts and leaves the empty
store unchanged. -/
theorem spec_C4_insufficient_data_witness :
    train_models (fun _ _ => (MLModel.gradientBoosting (fun _ => 0), fun v => v))
      ⟨[], []⟩ "bitcoin_1d" [] [] = (none, ⟨[], []⟩) :=
  spec_C4_insufficient_data _ _ _ _ _ (by decide)

/-- C5: when no model is held in memory for the key, `predict_price`
either fails with the model-not-found result (`None`) when no persisted
model file exists — leaving the in-memory store unchanged, with no
implicit training — or, when a persisted model exists, loads exactly
that model into memory and uses it for the prediction. -/
theorem spec_C5_model_not_found (mem : List (String × (MLModel × Scaler)))
    (files : String → Option (MLModel × Scaler)) (key : String)
    (recent : Option (List ℚ × ℚ)) (hmem : List.lookup key mem = none) :
    (files key = none → predict_price mem files key recent = (none, mem)) ∧
    (∀ m s x c, files key = some (m, s) → recent = some (x, c) →
      predict_price mem files key recent =
        (some { current_price := c
                predicted_price := MLModel.predictWith m s x
                price_change_percent := (MLModel.predictWith m s x - c) / c * 100
                confidence := calculate_confidence m x },
         (key, (m, s)) :: mem)) := by
  constructor
  · intro hf
    simp [predict_price, hmem, hf]
  · intro m s x c hf hr
    subst hr
    simp [predict_price, hmem, hf]

/-- Witness for C5: empty memory, no persisted model file — the
prediction fails and no model appears anywhere. -/
theorem spec_C5_model_not_found_witness :
    predict_price [] (fun _ => none) "bitcoin_1d" none = (none, []) :=
  (spec_C5_model_not_found [] (fun _ => none) "bitcoin_1d" none rfl).1 rfl

/-- C7: every prediction returned by `predict_price` with nonzero
current price satisfies
`price_change_percent = (predicted_price / current_price - 1) * 100`,
and the change percentage round-trips exactly over exact arithmetic:
`predicted_price = current_price * (1 + price_change_percent / 100)`. -/
theorem spec_C7_price_change_roundtrip (mem : List (String × (MLModel × Scaler)))
    (files : String → Option (MLModel × Scaler)) (key : String)
    (recent : Option (List ℚ × ℚ)) (p : Prediction)
    (mem2 : List (String × (MLModel × Scaler)))
    (h : predict_price mem files key recent = (some p, mem2))
    (hc : p.current_price ≠ 0) :
    p.price_change_percent = (p.predicted_price / p.current_price - 1) * 100 ∧
    p.predicted_price = p.current_price * (1 + p.price_change_percent / 100) := by
  unfold predict_price at h
  have hp : ∃ pr c conf : ℚ, p = Prediction.mk c pr ((pr - c) / c * 100) conf := by
    split at h
    · exact absurd h (by simp)
    · split at h
      · exact absurd h (by simp)
      · obtain ⟨h1, -⟩ := Prod.mk.injEq .. ▸ h
        exact ⟨_, _, _, (Option.some.inj h1).symm⟩
    · split at h
      · exact absurd h (by simp)
      · obtain ⟨h1, -⟩ := Prod.mk.injEq .. ▸ h
        exact ⟨_, _, _, (Option.some.inj h1).symm⟩
  obtain ⟨pr, c, conf, rfl⟩ := hp
  simp only at hc ⊢
  constructor
  · rw [sub_div, div_self hc]
  · field_simp
    ring

/-- Witness for C7 at a concrete prediction (current price 100,
predicted 110, change +10%): both identities hold. -/
theorem spec_C7_price_change_roundtrip_witness :
    (Prediction.mk 100 110 10 (3 / 4)).price_change_percent =
      ((Prediction.mk 100 110 10 (3 / 4)).predicted_price /
        (Prediction.mk 100 110 10 (3 / 4)).current_price - 1) * 100 ∧
    (Prediction.mk 100 110 10 (3 / 4)).predicted_price =
      (Prediction.mk 100 110 10 (3 / 4)).current_price *
        (1 + (Prediction.mk 100 110 10 (3 / 4)).price_change_percent / 100) :=
  spec_C7_price_change_roundtrip
    [("bitcoin_1d", (MLModel.gradientBoosting (fun _ => 110), fun v => v))]
    (fun _ => none) "bitcoin_1d" (some ([], 100)) (Prediction.mk 100 110 10 (3 / 4))
    [("bitcoin_1d", (MLModel.gradientBoosting (fun _ => 110), fun v => v))]
    (by
      simp [predict_price, List.lookup, MLModel.predictWith, calculate_confidence]
      norm_num)
    (by norm_num)

/-- C9: the confidence score always lies in [0, 1]; for a random forest
with nonzero mean tree prediction it is exactly the clamp of
`1 - variance/mean` over the individual tree predictions, and every
other model kind gets the fixed default 0.75. -/
theorem spec_C9_confidence (m : MLModel) (x : List ℚ) :
    (0 ≤ calculate_confidence m x ∧ calculate_confidence m x ≤ 1) ∧
    (∀ trees, m = MLModel.randomForest trees →
      listMean (trees.map (fun f => f x)) ≠ 0 →
      calculate_confidence m x =
        max 0 (min 1 (1 - np_var (trees.map (fun f => f x)) /
          listMean (trees.map (fun f => f x))))) ∧
    (∀ f, m = MLModel.gradientBoosting f → calculate_confidence m x = 3 / 4) ∧
    (∀ f, m = MLModel.linearRegression f → calculate_confidence m x = 3 / 4) := by
  cases m with
  | randomForest trees =>
    refine ⟨?_, ?_, ?_, ?_⟩
    · simp only [calculate_confidence]
      split_ifs with h1 h2
      · norm_num
      · norm_num
      · exact ⟨le_max_left 0 _, max_le (by norm_num) (min_le_left 1 _)⟩
    · intro trees' htrees hmean
      cases htrees
      simp [calculate_confidence, hmean]
    · intro f hf; exact MLModel.noConfusion hf
    · intro f hf; exact MLModel.noConfusion hf
  | gradientBoosting f =>
    refine ⟨by norm_num [calculate_confidence], ?_, ?_, ?_⟩
    · intro trees htrees; exact MLModel.noConfusion htrees
    · intro f' hf; rfl
    · intro f' hf; exact MLModel.noConfusion hf
  | linearRegression f =>
    refine ⟨by norm_num [calculate_confidence], ?_, ?_, ?_⟩
    · intro trees htrees; exact MLModel.noConfusion htrees
    · intro f' hf; exact MLModel.noConfusion hf
    · intro f' hf; rfl

/-- Witness for C9: a non-ensemble model gets the fixed default 0.75. -/
theorem spec_C9_confidence_witness :
    calculate_confidence (MLModel.gradientBoosting (fun _ => 0)) [] = 3 / 4 :=
  (spec_C9_confidence (MLModel.gradientBoosting (fun _ => 0)) []).2.2.1 _ rfl

/-- C10: when every predicted price is strictly positive,
`evaluate_model_performance` reports as `directional_accuracy` simply
the fraction of joined rows whose actual price exceeds the predicted
price — the "predicted direction" it compares against is the constant
condition `predicted_price > 0`, not a comparison with the price at
prediction time. -/
theorem spec_C10_directional_accuracy (rows : List (ℚ × ℚ)) (r : EvalReport)
    (h : evaluate_model_performance rows = some r)
    (hpos : ∀ pa ∈ rows, 0 < pa.1) :
    r.directional_accuracy =
      ((rows.filter (fun pa => decide (pa.1 < pa.2))).length : ℚ) / (rows.length : ℚ) := by
  unfold evaluate_model_performance at h
  split at h
  · exact absurd h (by simp)
  · have hr : r.directional_accuracy = directional_accuracy rows := by
      rw [← Option.some.inj h]
    have hfil : rows.filter (fun pa => decide (0 < pa.2 - pa.1) == decide (0 < pa.1)) =
        rows.filter (fun pa => decide (pa.1 < pa.2)) := by
      apply List.filter_congr
      intro pa hpa
      have h1 : decide (0 < pa.1) = true := decide_eq_true (hpos pa hpa)
      rw [h1]
      simp [sub_pos]
    rw [hr]
    unfold directional_accuracy
    rw [hfil]

/-- Witness for C10 at one joined row (predicted 1, actual 2): the
reported directional accuracy is the fraction of rows with
`actual > predicted`, here 1/1. -/
theorem spec_C10_directional_accuracy_witness :
    (EvalReport.mk 1 1 1 1 1).directional_accuracy =
      ((([((1 : ℚ), (2 : ℚ))].filter (fun pa => decide (pa.1 < pa.2))).length : ℚ) /
        ([((1 : ℚ), (2 : ℚ))].length : ℚ)) :=
  spec_C10_directional_accuracy [(1, 2)] (EvalReport.mk 1 1 1 1 1)
    (by
      simp [evaluate_model_performance, listMean, directional_accuracy]
      norm_num)
    (by norm_num)

/-! ## Claims about the Feature Builder -/

lemma filter_one_le_range (n : ℕ) :
    (List.range n).filter (fun t => decide (1 ≤ t)) = (List.range n).drop 1 := by
  cases n with
  | zero => rfl
  | succ m =>
    rw [List.range_succ_eq_map]
    rw [List.filter_cons_of_neg (by simp)]
    rw [List.drop_succ_cons, List.drop_zero]
    rw [List.filter_eq_self.mpr]
    intro a ha
    obtain ⟨b, -, rfl⟩ := List.mem_map.mp ha
    exact decide_eq_true (Nat.succ_le_succ (Nat.zero_le b))

lemma featureRowAt_price_1d_isSome (sq : ℚ → ℚ) (rows : List JoinedRow) {t : ℕ}
    (ht : t < rows.length) :
    (featureRowAt sq rows t).price_1d_ago.isSome = decide (1 ≤ t) := by
  simp only [featureRowAt, lagAt]
  by_cases h1 : 1 ≤ t
  · have hlt : t - 1 < (rows.map JoinedRow.price).length := by
      rw [List.length_map]; omega
    simp [h1, List.getElem?_eq_getElem hlt]
  · simp [h1]

lemma persisted_ml_features_eq_drop (sq : ℚ → ℚ) (rows : List JoinedRow) :
    persisted_ml_features sq rows = (create_ml_features sq rows).drop 1 := by
  unfold persisted_ml_features create_ml_features
  rw [List.filter_map]
  have hcong : (List.range rows.length).filter
      ((fun r : FeatureRow => r.price_1d_ago.isSome) ∘ fun t => featureRowAt sq rows t) =
      (List.range rows.length).filter (fun t => decide (1 ≤ t)) := by
    apply List.filter_congr
    intro t ht
    have hlt := List.mem_range.mp ht
    simpa [Function.comp] using featureRowAt_price_1d_isSome sq rows hlt
  rw [hcong, filter_one_le_range, List.map_drop]

lemma length_create_ml_features (sq : ℚ → ℚ) (rows : List JoinedRow) :
    (create_ml_features sq rows).length = rows.length := by
  unfold create_ml_features
  rw [List.length_map, List.length_range]

/-- C1 (counterexample): on the gap-free 31-point series of constant
price 1, `create_ml_features` persists 30 feature rows, not
`31 - 30 = 1`, and the very first persisted row has no 30-day lag —
rows missing the 7- or 30-day lag are persisted (with NULL lags), only
a missing `price_1d_ago` drops a row. -/
theorem spec_C1_lag_drop_counterexample :
    (persisted_ml_features (fun q => q) (List.replicate 31 ⟨1, 1, none, none, none⟩)).length
        = 30 ∧
    (persisted_ml_features (fun q => q) (List.replicate 31 ⟨1, 1, none, none, none⟩)).length
        ≠ 31 - 30 ∧
    ((persisted_ml_features (fun q => q)
        (List.replicate 31 ⟨1, 1, none, none, none⟩)).map FeatureRow.price_30d_ago).head?
        = some none := by
  have hlen : (persisted_ml_features (fun q => q)
      (List.replicate 31 (⟨1, 1, none, none, none⟩ : JoinedRow))).length = 30 := by
    rw [persisted_ml_features_eq_drop, List.length_drop, length_create_ml_features]
    simp
  refine ⟨hlen, by rw [hlen]; decide, ?_⟩
  rw [persisted_ml_features_eq_drop, List.head?_map, List.head?_eq_getElem?,
    List.getElem?_drop]
  unfold create_ml_features
  rw [List.getElem?_map, List.getElem?_range (by simp)]
  simp [featureRowAt, lagAt]

/-- C1 (amended): `create_ml_features` checks only the 1-day lag before
persisting (`pd.notna(row['price_1d_ago'])`), so exactly the feature
rows from index 1 on are persisted — rows whose 7- or 30-day lag is
missing are persisted with NULL lag columns — and for a series of
length n the number of persisted rows is n - 1, not n - 30. -/
theorem spec_C1_lag_filter_amended (sq : ℚ → ℚ) (rows : List JoinedRow) :
    persisted_ml_features sq rows = (create_ml_features sq rows).drop 1 ∧
    (persisted_ml_features sq rows).length = rows.length - 1 := by
  refine ⟨persisted_ml_features_eq_drop sq rows, ?_⟩
  rw [persisted_ml_features_eq_drop sq rows, List.length_drop, length_create_ml_features]

lemma trendDirection_some (v : ℚ) :
    trendDirection (some v) = (if 1 / 20 < v then 1 else if v < -(1 / 20) then -1 else 0) :=
  rfl

lemma trendDirection_mem_signs (x : Option ℚ) :
    trendDirection x = -1 ∨ trendDirection x = 0 ∨ trendDirection x = 1 := by
  cases x with
  | none => right; left; rfl
  | some v =>
    rw [trendDirection_some]
    split_ifs <;> tauto

/-- C8: every persisted feature row carries a trend label in {-1, 0, 1},
and whenever the 7-period percentage change at the row's date is
defined it is exactly the ±5%-thresholded sign of that change. -/
theorem spec_C8_trend_direction (sq : ℚ → ℚ) (rows : List JoinedRow) (r : FeatureRow)
    (hr : r ∈ persisted_ml_features sq rows) :
    (r.trend_direction = -1 ∨ r.trend_direction = 0 ∨ r.trend_direction = 1) ∧
    ∀ v, pctChange7At (rows.map JoinedRow.price) r.date = some v →
      r.trend_direction = (if 1 / 20 < v then 1 else if v < -(1 / 20) then -1 else 0) := by
  have hr' : r ∈ create_ml_features sq rows := (List.mem_filter.mp hr).1
  obtain ⟨t, -, rfl⟩ := List.mem_map.mp hr'
  have htd : (featureRowAt sq rows t).trend_direction
      = trendDirection (pctChange7At (rows.map JoinedRow.price) t) := rfl
  have hdate : (featureRowAt sq rows t).date = t := rfl
  constructor
  · rw [htd]
    exact trendDirection_mem_signs _
  · intro v hv
    rw [hdate] at hv
    rw [htd, hv, trendDirection_some]

/-- The eight-point series used as the C8 witness: seven prices of 1
followed by one price of 2 (7-period change +100%). -/
def trendSeries8 : List JoinedRow :=
  [⟨1, 1, none, none, none⟩, ⟨1, 1, none, none, none⟩, ⟨1, 1, none, none, none⟩,
   ⟨1, 1, none, none, none⟩, ⟨1, 1, none, none, none⟩, ⟨1, 1, none, none, none⟩,
   ⟨1, 1, none, none, none⟩, ⟨2, 1, none, none, none⟩]

/-- Witness for C8: the feature row at date 7 of `trendSeries8` is
persisted, its 7-period change is +100% > 5%, and its trend label is 1
(by the theorem). -/
theorem spec_C8_trend_direction_witness :
    featureRowAt (fun q => q) trendSeries8 7 ∈ persisted_ml_features (fun q => q) trendSeries8 ∧
    (featureRowAt (fun q => q) trendSeries8 7).trend_direction = 1 := by
  have hcreate : featureRowAt (fun q => q) trendSeries8 7 ∈
      create_ml_features (fun q => q) trendSeries8 := by
    unfold create_ml_features
    exact List.mem_map.mpr ⟨7, by decide, rfl⟩
  have h1d : (featureRowAt (fun q => q) trendSeries8 7).price_1d_ago.isSome = true := rfl
  have hmem : featureRowAt (fun q => q) trendSeries8 7 ∈
      persisted_ml_features (fun q => q) trendSeries8 :=
    List.mem_filter.mpr ⟨hcreate, h1d⟩
  refine ⟨hmem, ?_⟩
  have H := spec_C8_trend_direction (fun q => q) trendSeries8 _ hmem
  have hv : pctChange7At (trendSeries8.map JoinedRow.price)
      ((featureRowAt (fun q => q) trendSeries8 7).date) = some 1 := by
    show pctChange7At (trendSeries8.map JoinedRow.price) 7 = some 1
    simp [pctChange7At, trendSeries8]
    norm_num
  rw [H.2 1 hv]
  norm_num

/-! ## Claims about the Indicator Engine -/

lemma mem_of_rollingWindow {w : ℕ} {xs win : List ℚ} {t : ℕ}
    (h : rollingWindow w xs t = some win) : ∀ x ∈ win, x ∈ xs := by
  unfold rollingWindow at h
  split at h
  · intro x hx
    rw [← Option.some.inj h] at hx
    exact List.mem_of_mem_drop (List.mem_of_mem_take hx)
  · exact absurd h (by simp)

lemma rollingMeanAt_nonneg {w : ℕ} {xs : List ℚ} {t : ℕ} {m : ℚ}
    (hxs : ∀ x ∈ xs, 0 ≤ x) (h : rollingMeanAt w xs t = some m) : 0 ≤ m := by
  unfold rollingMeanAt at h
  cases hw : rollingWindow w xs t with
  | none => rw [hw] at h; exact absurd h (by simp)
  | some win =>
    rw [hw] at h
    simp only [Option.map_some'] at h
    rw [← Option.some.inj h]
    have hsum : 0 ≤ win.sum :=
      List.sum_nonneg (fun x hx => hxs x (mem_of_rollingWindow hw x hx))
    exact div_nonneg hsum (by positivity)

lemma zipWith_nonneg {f : ℚ → ℚ → ℚ} (hf : ∀ a b, 0 ≤ f a b) :
    ∀ (as bs : List ℚ), ∀ x ∈ List.zipWith f as bs, 0 ≤ x := by
  intro as
  induction as with
  | nil => intro bs x hx; simp at hx
  | cons a as ih =>
    intro bs x hx
    cases bs with
    | nil => simp at hx
    | cons b bs =>
      rw [List.zipWith_cons_cons] at hx
      rcases List.mem_cons.mp hx with rfl | hx
      · exact hf a b
      · exact ih bs x hx

lemma gainList_nonneg (xs : List ℚ) : ∀ x ∈ gainList xs, 0 ≤ x := by
  intro x hx
  unfold gainList at hx
  rcases List.mem_cons.mp hx with rfl | hx
  · exact le_refl 0
  · refine zipWith_nonneg (fun a b => ?_) _ _ x hx
    unfold posPart
    split
    · linarith
    · exact le_refl 0

lemma lossList_nonneg (xs : List ℚ) : ∀ x ∈ lossList xs, 0 ≤ x := by
  intro x hx
  unfold lossList at hx
  rcases List.mem_cons.mp hx with rfl | hx
  · exact le_refl 0
  · refine zipWith_nonneg (fun a b => ?_) _ _ x hx
    unfold negPart
    split
    · linarith
    · exact le_refl 0

/-- C2: every defined `rsi_14` value lies in the closed interval
[0, 100]; in particular the zero-average-loss case yields exactly 100
(the float `inf` path) and never a value outside the range. -/
theorem spec_C2_rsi_bounded (xs : List ℚ) (t : ℕ) (r : ℚ)
    (h : rsiAt xs t = some r) : 0 ≤ r ∧ r ≤ 100 := by
  unfold rsiAt at h
  cases hg : rollingMeanAt 14 (gainList xs) t with
  | none => rw [hg] at h; exact absurd h (by simp)
  | some g =>
    cases hl : rollingMeanAt 14 (lossList xs) t with
    | none => rw [hg, hl] at h; exact absurd h (by simp)
    | some l =>
      rw [hg, hl] at h
      simp only at h
      have hg0 : 0 ≤ g := rollingMeanAt_nonneg (gainList_nonneg xs) hg
      have hl0 : 0 ≤ l := rollingMeanAt_nonneg (lossList_nonneg xs) hl
      by_cases hlz : l = 0
      · by_cases hgz : g = 0
        · rw [if_pos hlz, if_pos hgz] at h
          exact absurd h (by simp)
        · rw [if_pos hlz, if_neg hgz] at h
          rw [← Option.some.inj h]
          norm_num
      · rw [if_neg hlz] at h
        rw [← Option.some.inj h]
        have hlpos : 0 < l := lt_of_le_of_ne hl0 (Ne.symm hlz)
        have hq0 : 0 ≤ g / l := div_nonneg hg0 hl0
        have hd1 : (0 : ℚ) < 1 + g / l := by linarith
        have hdle : 100 / (1 + g / l) ≤ 100 := div_le_self (by norm_num) (by linarith)
        have hdpos : 0 < 100 / (1 + g / l) := div_pos (by norm_num) hd1
        constructor <;> linarith

/-- Witness for C2: a strictly increasing 14-point series has zero
average loss; the code produces exactly 100, which the theorem
confirms to lie in [0, 100]. -/
theorem spec_C2_rsi_bounded_witness :
    rsiAt [1, 2, 3, 4, 5, 6, 7, 8, 9, 10, 11, 12, 13, 14] 13 = some 100 ∧
    (0 ≤ (100 : ℚ) ∧ (100 : ℚ) ≤ 100) := by
  have hrsi : rsiAt [1, 2, 3, 4, 5, 6, 7, 8, 9, 10, 11, 12, 13, 14] 13 = some 100 := by
    simp [rsiAt, rollingMeanAt, rollingWindow, gainList, lossList, posPart, negPart]
    norm_num
  exact ⟨hrsi, spec_C2_rsi_bounded _ 13 100 hrsi⟩

lemma getElem?_congr_of_take_eq {α : Type} {xs ys : List α} {k t : ℕ}
    (h : xs.take k = ys.take k) (ht : t < k) : xs[t]? = ys[t]? := by
  have h1 : (xs.take k)[t]? = xs[t]? := List.getElem?_take_of_lt ht
  have h2 : (ys.take k)[t]? = ys[t]? := List.getElem?_take_of_lt ht
  rw [← h1, ← h2, h]

lemma getD_congr_of_take_eq {xs ys : List ℚ} {k t : ℕ}
    (h : xs.take k = ys.take k) (ht : t < k) : xs.getD t 0 = ys.getD t 0 := by
  rw [List.getD_eq_getElem?_getD, List.getD_eq_getElem?_getD,
    getElem?_congr_of_take_eq h ht]

lemma take_of_take_succ (t : ℕ) (zs : List ℚ) : (zs.take (t + 1)).take t = zs.take t := by
  rw [List.take_take]
  congr 1
  omega

lemma take_congr_of_take_succ_eq {xs ys : List ℚ} {t : ℕ}
    (h : xs.take (t + 1) = ys.take (t + 1)) : xs.take t = ys.take t := by
  rw [← take_of_take_succ t xs, h, take_of_take_succ t ys]

lemma rollingWindow_congr (w : ℕ) {xs ys : List ℚ} {t : ℕ} (hx : t < xs.length)
    (hy : t < ys.length) (h : xs.take (t + 1) = ys.take (t + 1)) :
    rollingWindow w xs t = rollingWindow w ys t := by
  unfold rollingWindow
  by_cases hw : w ≤ t + 1
  · have hwin : (xs.drop (t + 1 - w)).take w = (ys.drop (t + 1 - w)).take w := by
      rw [List.take_drop, List.take_drop, Nat.sub_add_cancel hw, h]
    simp [hw, hx, hy, hwin]
  · simp [hw]

lemma rollingMeanAt_congr (w : ℕ) {xs ys : List ℚ} {t : ℕ} (hx : t < xs.length)
    (hy : t < ys.length) (h : xs.take (t + 1) = ys.take (t + 1)) :
    rollingMeanAt w xs t = rollingMeanAt w ys t := by
  unfold rollingMeanAt
  rw [rollingWindow_congr w hx hy h]

lemma rollingStdAt_congr (sq : ℚ → ℚ) (w : ℕ) {xs ys : List ℚ} {t : ℕ}
    (hx : t < xs.length) (hy : t < ys.length) (h : xs.take (t + 1) = ys.take (t + 1)) :
    rollingStdAt sq w xs t = rollingStdAt sq w ys t := by
  unfold rollingStdAt
  rw [rollingWindow_congr w hx hy h]

lemma ewmAux_take_congr (c : ℚ) :
    ∀ (k : ℕ) (xs ys : List ℚ) (num den : ℚ), xs.take k = ys.take k →
      (ewmAux c num den xs).take k = (ewmAux c num den ys).take k := by
  intro k
  induction k with
  | zero => intro xs ys num den h; simp
  | succ n ih =>
    intro xs ys num den h
    cases xs with
    | nil =>
      cases ys with
      | nil => rfl
      | cons b ys => simp at h
    | cons a xs =>
      cases ys with
      | nil => simp at h
      | cons b ys =>
        rw [List.take_succ_cons, List.take_succ_cons] at h
        obtain ⟨rfl, h2⟩ : a = b ∧ xs.take n = ys.take n :=
          ⟨List.head_eq_of_cons_eq h, List.tail_eq_of_cons_eq h⟩
        show ((a + c * num) / (1 + c * den) :: ewmAux c _ _ xs).take (n + 1) =
          ((a + c * num) / (1 + c * den) :: ewmAux c _ _ ys).take (n + 1)
        rw [List.take_succ_cons, List.take_succ_cons, ih xs ys _ _ h2]

lemma ewmMean_take_congr (span : ℚ) {xs ys : List ℚ} {k : ℕ}
    (h : xs.take k = ys.take k) :
    (ewmMean span xs).take k = (ewmMean span ys).take k :=
  ewmAux_take_congr _ k xs ys 0 0 h

lemma ewmMean_getD_congr (span : ℚ) {xs ys : List ℚ} {t : ℕ}
    (h : xs.take (t + 1) = ys.take (t + 1)) :
    (ewmMean span xs).getD t 0 = (ewmMean span ys).getD t 0 :=
  getD_congr_of_take_eq (ewmMean_take_congr span h) (Nat.lt_succ_self t)

lemma macdList_take_congr {xs ys : List ℚ} {k : ℕ} (h : xs.take k = ys.take k) :
    (macdList xs).take k = (macdList ys).take k := by
  unfold macdList
  rw [List.take_zipWith, List.take_zipWith, ewmMean_take_congr 12 h,
    ewmMean_take_congr 26 h]

lemma diffZip_take_congr (f : ℚ → ℚ → ℚ) {xs ys : List ℚ} {t : ℕ}
    (h : xs.take (t + 1) = ys.take (t + 1)) :
    (0 :: List.zipWith f (xs.drop 1) xs).take (t + 1) =
      (0 :: List.zipWith f (ys.drop 1) ys).take (t + 1) := by
  rw [List.take_succ_cons, List.take_succ_cons]
  have h1 : (xs.drop 1).take t = (ys.drop 1).take t := by
    rw [List.take_drop, List.take_drop]
    have h1t : (1 : ℕ) + t = t + 1 := Nat.add_comm 1 t
    rw [h1t, h]
  have h2 : xs.take t = ys.take t := take_congr_of_take_succ_eq h
  rw [List.take_zipWith, List.take_zipWith, h1, h2]

lemma gainList_take_congr {xs ys : List ℚ} {t : ℕ}
    (h : xs.take (t + 1) = ys.take (t + 1)) :
    (gainList xs).take (t + 1) = (gainList ys).take (t + 1) :=
  diffZip_take_congr _ h

lemma lossList_take_congr {xs ys : List ℚ} {t : ℕ}
    (h : xs.take (t + 1) = ys.take (t + 1)) :
    (lossList xs).take (t + 1) = (lossList ys).take (t + 1) :=
  diffZip_take_congr _ h

lemma lt_length_gainList {xs : List ℚ} {t : ℕ} (ht : t < xs.length) :
    t < (gainList xs).length := by
  unfold gainList
  simp [List.length_zipWith]
  omega

lemma lt_length_lossList {xs : List ℚ} {t : ℕ} (ht : t < xs.length) :
    t < (lossList xs).length := by
  unfold lossList
  simp [List.length_zipWith]
  omega

lemma rsiAt_congr {xs ys : List ℚ} {t : ℕ} (hx : t < xs.length) (hy : t < ys.length)
    (h : xs.take (t + 1) = ys.take (t + 1)) : rsiAt xs t = rsiAt ys t := by
  have hg := rollingMeanAt_congr 14 (lt_length_gainList hx) (lt_length_gainList hy)
    (gainList_take_congr h)
  have hl := rollingMeanAt_congr 14 (lt_length_lossList hx) (lt_length_lossList hy)
    (lossList_take_congr h)
  unfold rsiAt
  rw [hg, hl]

lemma indicatorRowAt_congr (sq : ℚ → ℚ) {xs ys : List ℚ} {t : ℕ}
    (hx : t < xs.length) (hy : t < ys.length) (h : xs.take (t + 1) = ys.take (t + 1)) :
    indicatorRowAt sq xs t = indicatorRowAt sq ys t := by
  unfold indicatorRowAt
  rw [rollingMeanAt_congr 7 hx hy h, rollingMeanAt_congr 14 hx hy h,
    rollingMeanAt_congr 30 hx hy h, ewmMean_getD_congr 12 h, ewmMean_getD_congr 26 h,
    rsiAt_congr hx hy h,
    getD_congr_of_take_eq (macdList_take_congr h) (Nat.lt_succ_self t),
    getD_congr_of_take_eq (ewmMean_take_congr 9 (macdList_take_congr h)) (Nat.lt_succ_self t),
    rollingStdAt_congr sq 14 hx hy h]

/-- C6: the Indicator Engine has no look-ahead.  For any two price
series that agree up to and including index t, the indicator row at
index t (all eleven columns) is identical — every indicator value at t
depends only on prices at indices 0..t.  This holds for every
square-root model `sq`. -/
theorem spec_C6_no_lookahead (sq : ℚ → ℚ) (xs ys : List ℚ) (t : ℕ)
    (hx : t < xs.length) (hy : t < ys.length)
    (h : xs.take (t + 1) = ys.take (t + 1)) :
    (calculate_technical_indicators sq xs)[t]? =
      (calculate_technical_indicators sq ys)[t]? := by
  unfold calculate_technical_indicators
  rw [List.getElem?_map, List.getElem?_map, List.getElem?_range hx,
    List.getElem?_range hy]
  simp only [Option.map_some']
  rw [indicatorRowAt_congr sq hx hy h]

/-- Witness for C6: the series [1, 2, 3] and [1, 2, 4] agree on their
first two points, so their indicator rows at index 1 coincide. -/
theorem spec_C6_no_lookahead_witness :
    (calculate_technical_indicators (fun q => q) [1, 2, 3])[1]? =
      (calculate_technical_indicators (fun q => q) [(1 : ℚ), 2, 4])[1]? :=
  spec_C6_no_lookahead (fun q => q) [1, 2, 3] [1, 2, 4] 1
    (by decide) (by decide) (by norm_num)

end CryptoPipeline

